import Mathlib

/-!
Verification of the Blankly model-orchestration and simulated-ledger subsystem.

Shallow embedding of three Python source files:
* `Blankly/utils/paper_trading/local_account/trade_local.py` — the local
  paper-trading ledger (`trade_local`, `init_local_account`);
* `blankly/exchanges/exchange.py` — the `Exchange` orchestrator
  (`append_model`, `start_models`, `get_model_state`, `get_full_state`,
  `write_value`);
* `blankly/strategy/signal.py` — the `Signal` evaluation pipeline.

Python `dict`s are embedded as association lists with insertion-order
preserving update (assignment to an existing key keeps its position;
assignment to a fresh key appends), matching CPython semantics.  Balances are
Python numbers, embedded as an arbitrary type with addition (`Int` in
concrete instances).  Calls into external collaborators (models, the exchange
interface, `print`, `time.sleep`) are recorded as events in a trace, so
ordering claims become claims about the trace.
-/

/-- Python `dict` read `d[k]`: `some` of the stored value, `none` when the
key is absent (a `KeyError` in Python). -/
def dictLookup {β : Type} : List (String × β) → String → Option β
  | [], _ => none
  | (k', v') :: t, k => if k' = k then some v' else dictLookup t k

/-- Python `dict` write `d[k] = v`: overwrite in place when the key exists
(keeping insertion order), append when it is fresh. -/
def dictUpdate {β : Type} : List (String × β) → String → β → List (String × β)
  | [], k, v => [(k, v)]
  | (k', v') :: t, k, v =>
      if k' = k then (k, v) :: t else (k', v') :: dictUpdate t k v

/-! ## Ledger (`trade_local.py`)

The module-level `local_account.account` dict is embedded by explicit state
passing: each operation takes the account and returns the account after the
call, together with the exception it raised, if any. -/

/-- Ledger state: the `local_account.account` dict, currency code → balance.
Balances are Python numbers; the type is abstract with addition. -/
abbrev Ledger (α : Type) := List (String × α)

/-- Modelled from the spec: `utils.get_base_currency` lives in
`Blankly/utils/utils.py`, which is not among the source files; the spec says a
symbol such as "BTC-USD" is decomposed deterministically into base and quote
currency codes by a fixed separator rule.  The base code is the part before
the separator. -/
def get_base_currency (currency_pair : String) : String :=
  String.mk (currency_pair.toList.takeWhile (fun c => c ≠ '-'))

/-- Modelled from the spec: `utils.get_quote_currency` is the counterpart of
`get_base_currency`; the quote code is the part after the separator. -/
def get_quote_currency (currency_pair : String) : String :=
  String.mk (((currency_pair.toList.dropWhile (fun c => c ≠ '-')).drop 1).takeWhile
    (fun c => c ≠ '-'))

/-- Exceptions `trade_local` can raise: the `KeyError`s
"Base currency specified not found in local account" and
"Quote currency specified not found in local account". -/
inductive TradeError
  | baseCurrencyNotFound
  | quoteCurrencyNotFound
  deriving DecidableEq, Repr

/-- Embedding of `trade_local(currency_pair, side, base_delta, quote_delta)`.
The function splits the pair, then runs
`account[base] = account[base] + base_delta` (read first — a missing key
raises before any write) and then
`account[quote] = account[quote] + quote_delta`.  The returned ledger is the
module-level account as it stands when the call ends, whether or not an
exception was raised, so a failure on the quote leg keeps the already-applied
base leg. -/
def trade_local {α : Type} [Add α] (account : Ledger α) (currency_pair : String)
    (side : String) (base_delta quote_delta : α) : Ledger α × Option TradeError :=
  let base := get_base_currency currency_pair
  let quote := get_quote_currency currency_pair
  match dictLookup account base with
  | none => (account, some TradeError.baseCurrencyNotFound)
  | some b =>
      let account1 := dictUpdate account base (b + base_delta)
      match dictLookup account1 quote with
      | none => (account1, some TradeError.quoteCurrencyNotFound)
      | some q => (dictUpdate account1 quote (q + quote_delta), none)

/-- Embedding of `init_local_account(currencies)`: wholesale replacement of
the account dict. -/
def init_local_account {α : Type} (currencies : Ledger α) : Ledger α :=
  currencies

/-- C1 counterexample ledger: `BTC` exists with balance 2, `USD` does not. -/
def ledgerBtcOnly : Ledger Int := [("BTC", 2)]

/-- C3 counterexample ledger: a single currency `BTC` with balance 0. -/
def ledgerBtcZero : Ledger Int := [("BTC", 0)]

/-- C3 witness ledger: `BTC`, `USD` and a bystander `XLM`. -/
def ledgerThree : Ledger Int := [("BTC", 2), ("USD", 100), ("XLM", 7)]

/-! ## Exchange orchestrator (`exchange.py`)

The `Exchange` object's mutable field `self.models` (the model registry) is
embedded by explicit state passing.  Attached models are duck-typed Python
objects; here a model is its observable behaviour: an identity, the answer of
`get_state()`, and the answer of `is_running()`.  Calls the orchestrator makes
into models, the abstract `get_asset_state`, `print` and `time.sleep` are
recorded as events. -/

/-- Answer of a model's `get_state()`: an arbitrary key/value mapping. -/
abbrev ModelState := List (String × Int)

/-- Opaque invocation arguments stored with a model (`args=None` default). -/
abbrev Args := Option Int

/-- Observable behaviour of an attached model object. -/
structure Model where
  id : Nat
  state : ModelState
  running : Bool
  deriving DecidableEq, Repr

/-- Registry entry: the dict `{"model": model, "args": args}`. -/
structure ModelEntry where
  model : Model
  args : Args
  deriving DecidableEq, Repr

/-- The `self.models` dict: symbol → entry, in insertion order. -/
abbrev Registry := List (String × ModelEntry)

/-- Answer of the abstract `get_asset_state(symbol)` interface call. -/
abbrev AssetState := List (String × Int)

/-- The dict `{"account": ..., "model": ...}` built by `get_full_state`. -/
structure FullState where
  account : AssetState
  model : ModelState
  deriving DecidableEq, Repr

/-- External calls made by the orchestrator, in program order. -/
inductive ExchEvent
  | store (coin : String) (entry : ModelEntry)
  | getAssetState (coin : String)
  | getState (modelId : Nat)
  | setupCall (modelId : Nat) (coin : String) (initial_state : FullState)
  | isRunningQuery (modelId : Nat)
  | runCall (modelId : Nat) (args : Args)
  | printIgnoring (coin : String)
  | sleepDelay
  | updateStateCall (modelId : Nat) (key : String) (value : Int)
  deriving DecidableEq, Repr

/-- Exceptions the orchestrator raises: `KeyError` on `self.models[coin]`
when no entry exists for the symbol. -/
inductive ExchError
  | unknownSymbol
  deriving DecidableEq, Repr

/-- Outcome of an orchestrator method: a value or a raised exception. -/
inductive ExchResult (β : Type)
  | ok (val : β)
  | err (e : ExchError)
  deriving DecidableEq, Repr

/-- Effect of one orchestrator method call: the registry after the call, the
external calls made, and the outcome. -/
structure ExchOut (β : Type) where
  registry : Registry
  events : List ExchEvent
  result : ExchResult β
  deriving DecidableEq, Repr

/-- Embedding of `Exchange.get_model_state(currency)` (which goes through
`__get_model`): `self.models[currency]["model"].get_state()`. -/
def get_model_state (models : Registry) (currency : String) : ExchOut ModelState :=
  match dictLookup models currency with
  | none => ⟨models, [], ExchResult.err ExchError.unknownSymbol⟩
  | some e => ⟨models, [ExchEvent.getState e.model.id], ExchResult.ok e.model.state⟩

/-- Embedding of `Exchange.get_full_state(currency)`: first the abstract
`get_asset_state` interface call, then `get_model_state`, combined into the
`{"account": ..., "model": ...}` dict.  `asset_state` is the abstract
exchange-specific query, assumed pure. -/
def get_full_state (asset_state : String → AssetState) (models : Registry)
    (currency : String) : ExchOut FullState :=
  let st := asset_state currency
  match get_model_state models currency with
  | ⟨_, evs, ExchResult.ok ms⟩ =>
      ⟨models, ExchEvent.getAssetState currency :: evs, ExchResult.ok ⟨st, ms⟩⟩
  | ⟨_, evs, ExchResult.err e⟩ =>
      ⟨models, ExchEvent.getAssetState currency :: evs, ExchResult.err e⟩

/-- Embedding of `Exchange.write_value(currency, key, value)`:
`self.models[currency]["model"].update_state(key, value)`. -/
def write_value (models : Registry) (currency key : String) (value : Int) :
    ExchOut Unit :=
  match dictLookup models currency with
  | none => ⟨models, [], ExchResult.err ExchError.unknownSymbol⟩
  | some e =>
      ⟨models, [ExchEvent.updateStateCall e.model.id key value], ExchResult.ok ()⟩

/-- Embedding of `Exchange.append_model(model, coin_id, args)`: the entry is
stored into `self.models` first, then `self.get_full_state(coin_id)` is
evaluated (as the `initial_state` argument), then `model.setup(...)` is
called with it. -/
def append_model (asset_state : String → AssetState) (models : Registry)
    (model : Model) (coin_id : String) (args : Args) : ExchOut Unit :=
  let entry : ModelEntry := ⟨model, args⟩
  let models1 := dictUpdate models coin_id entry
  match get_full_state asset_state models1 coin_id with
  | ⟨_, evs, ExchResult.ok fs⟩ =>
      ⟨models1,
       ExchEvent.store coin_id entry :: evs
         ++ [ExchEvent.setupCall model.id coin_id fs],
       ExchResult.ok ()⟩
  | ⟨_, evs, ExchResult.err e⟩ =>
      ⟨models1, ExchEvent.store coin_id entry :: evs, ExchResult.err e⟩

/-- Calls made for one registry entry during the bulk-start loop: query
`is_running()`; if not running, `run(args)` then `time.sleep(.1)`; otherwise
print the "Ignoring the model on ..." diagnostic. -/
def startEntryEvents (coin : String) (e : ModelEntry) : List ExchEvent :=
  if e.model.running then
    [ExchEvent.isRunningQuery e.model.id, ExchEvent.printIgnoring coin]
  else
    [ExchEvent.isRunningQuery e.model.id, ExchEvent.runCall e.model.id e.args,
     ExchEvent.sleepDelay]

/-- Embedding of `Exchange.start_models(coin_id=None)`.  With a symbol:
look the entry up (`KeyError` when absent), query `is_running()`, and call
`run(args)` only when it answers false.  Without a symbol: iterate the
registry in insertion order, starting each non-running model and skipping
each running one with a diagnostic. -/
def start_models (models : Registry) (coin_id : Option String) : ExchOut Unit :=
  match coin_id with
  | some c =>
      match dictLookup models c with
      | none => ⟨models, [], ExchResult.err ExchError.unknownSymbol⟩
      | some e =>
          if e.model.running then
            ⟨models, [ExchEvent.isRunningQuery e.model.id], ExchResult.ok ()⟩
          else
            ⟨models, [ExchEvent.isRunningQuery e.model.id,
                      ExchEvent.runCall e.model.id e.args], ExchResult.ok ()⟩
  | none =>
      ⟨models, (models.map (fun p => startEntryEvents p.1 p.2)).flatten, ExchResult.ok ()⟩

/-- Recognizer for `run(args)` calls in a trace. -/
def isRunEvent : ExchEvent → Bool
  | ExchEvent.runCall _ _ => true
  | _ => false

/-- The `run(args)` calls of a trace, in order. -/
def runEvents (tr : List ExchEvent) : List ExchEvent :=
  tr.filter isRunEvent

/-- Model identity mentioned by a `run(args)` call (0 for other events). -/
def eventModelId : ExchEvent → Nat
  | ExchEvent.runCall m _ => m
  | _ => 0

/-- Concrete abstract-interface answer used in counterexamples/witnesses. -/
def assetStateConst : String → AssetState := fun _ => [("USD", 5)]

/-- Concrete model used in the C2 counterexample. -/
def modelA : Model := ⟨0, [("k", 1)], false⟩

/-- Concrete running model (id 1). -/
def modelRunning : Model := ⟨1, [("r", 0)], true⟩

/-- Concrete stopped model (id 2). -/
def modelStopped : Model := ⟨2, [("s", 0)], false⟩

/-- Concrete registry: a running model on "BTC-USD" and a stopped one on
"ETH-USD". -/
def regTwo : Registry :=
  [("BTC-USD", ⟨modelRunning, none⟩), ("ETH-USD", ⟨modelStopped, some 9⟩)]

/-! ## Signal pipeline (`signal.py`)

`Signal.__init__` stores the callables, creates the signal state and the two
empty result dicts, and immediately calls `__run`.  The user callables are
embedded as optional pure functions threading the mutable `signal_state`; a
`None`/non-callable slot is `none` (the code only checks `callable(...)`).
`__run` is embedded as a function from the inputs to the object's observable
fields after construction — the two result dicts, the signal state, the
sequence of callable invocations, and the exception raised, if any. -/

/-- The mutable `SignalState` handle, as an opaque key/value mapping. -/
abbrev SigState := List (String × Int)

/-- Value an evaluator returns for one symbol, e.g. `{"classification": True}`. -/
abbrev SigResult := List (String × Bool)

/-- The `raw_results` / `formatted_results` dicts: symbol → evaluator value. -/
abbrev SigResults := List (String × SigResult)

/-- An evaluator callable: `evaluator(symbol, signal_state)`, which may read
and mutate the signal state and returns the raw result for the symbol. -/
abbrev Evaluator := String → SigState → SigResult × SigState

/-- A formatter callable: `formatter(formatted_results, signal_state)`; its
return value replaces the formatted results. -/
abbrev Formatter := SigResults → SigState → SigResults × SigState

/-- Invocations of the user-supplied callables, in program order. -/
inductive SigEvent
  | initCall
  | evalCall (symbol : String)
  | formatterCall
  | teardownCall
  deriving DecidableEq, Repr

/-- Exception `__run` raises itself: the
`TypeError("Must pass a callable for the evaluator.")`. -/
inductive SigError
  | evaluatorNotCallable
  deriving DecidableEq, Repr

/-- Observable outcome of constructing a `Signal`: the fields of the object
when construction ends (normally or by the raised exception). -/
structure SigRun where
  raw_results : SigResults
  formatted_results : SigResults
  finalState : SigState
  events : List SigEvent
  error : Option SigError
  deriving DecidableEq, Repr

/-- The `for i in self.symbols` loop:
`self.raw_results[i] = evaluator(i, self.signal_state)` in list order,
threading the signal state. -/
def evalLoop (evaluator : Evaluator) :
    List String → SigState → SigResults → SigResults × SigState × List SigEvent
  | [], st, acc => (acc, st, [])
  | s :: rest, st, acc =>
      let r := evaluator s st
      let next := evalLoop evaluator rest r.2 (dictUpdate acc s r.1)
      (next.1, next.2.1, SigEvent.evalCall s :: next.2.2)

/-- Embedding of `copy.deepcopy` on the results dict.  On pure values a deep
copy is the identity; the point of the call in the source is that the
formatter receives and replaces a value, never a reference into
`raw_results`. -/
def deepcopy (r : SigResults) : SigResults := r

/-- Embedding of `Signal.__run` (invoked once from `__init__`): call `init`
if callable; raise `TypeError` unless the evaluator is callable; evaluate
every symbol in list order into `raw_results`; deep-copy them into
`formatted_results`; pass the copy to `formatter` if callable, its return
value replacing the formatted results; finally call `teardown` if
callable. -/
def signalRun (evaluator : Option Evaluator) (symbols : List String)
    (init : Option (SigState → SigState))
    (teardown : Option (SigState → SigState))
    (formatter : Option Formatter) (st0 : SigState) : SigRun :=
  let stepInit : SigState × List SigEvent :=
    match init with
    | some f => (f st0, [SigEvent.initCall])
    | none => (st0, [])
  match evaluator with
  | none =>
      ⟨[], [], stepInit.1, stepInit.2, some SigError.evaluatorNotCallable⟩
  | some ev =>
      let lp := evalLoop ev symbols stepInit.1 []
      let formatted := deepcopy lp.1
      let stepFmt : SigResults × SigState × List SigEvent :=
        match formatter with
        | some f =>
            let fr := f formatted lp.2.1
            (fr.1, fr.2, [SigEvent.formatterCall])
        | none => (formatted, lp.2.1, [])
      let stepTd : SigState × List SigEvent :=
        match teardown with
        | some f => (f stepFmt.2.1, [SigEvent.teardownCall])
        | none => (stepFmt.2.1, [])
      ⟨lp.1, stepFmt.1, stepTd.1,
       stepInit.2 ++ lp.2.2 ++ stepFmt.2.2 ++ stepTd.2, none⟩

/-- Concrete init callable used in the C4 witness. -/
def initShift : SigState → SigState := fun st => dictUpdate st "started" 1

/-! # Theorems -/

/-! ## Dictionary lemmas -/

theorem dictLookup_dictUpdate_self {β : Type} (l : List (String × β)) (k : String) (v : β) :
    dictLookup (dictUpdate l k v) k = some v := by
  induction l with
  | nil => simp [dictLookup, dictUpdate]
  | cons hd t ih =>
      by_cases h : hd.1 = k
      · simp [dictLookup, dictUpdate, h]
      · simp [dictLookup, dictUpdate, h, ih]

theorem dictLookup_dictUpdate_ne {β : Type} (l : List (String × β)) (k c : String) (v : β)
    (hne : c ≠ k) : dictLookup (dictUpdate l k v) c = dictLookup l c := by
  have hkc : ¬k = c := fun h => hne h.symm
  induction l with
  | nil => simp [dictLookup, dictUpdate, hkc]
  | cons hd t ih =>
      by_cases h : hd.1 = k
      · simp [dictLookup, dictUpdate, h, hkc]
      · simp [dictLookup, dictUpdate, h, ih]

/-! ## Claims about `trade_local` -/

/-- C1, counterexample.  The claim says a trade with an unknown base OR quote
currency leaves both balances unchanged.  On the ledger `{BTC: 2}` the call
`trade_local("BTC-USD", "buy", 1, 0)` fails on the quote leg (`USD` is
unknown), yet the base balance has already been changed from 2 to 3: the base
leg is applied before the quote currency is validated. -/
theorem trade_local_unknown_quote_mutates_base :
    dictLookup ledgerBtcOnly "USD" = none
    ∧ (trade_local ledgerBtcOnly "BTC-USD" "buy" 1 0).2
        = some TradeError.quoteCurrencyNotFound
    ∧ dictLookup ledgerBtcOnly "BTC" = some 2
    ∧ dictLookup (trade_local ledgerBtcOnly "BTC-USD" "buy" 1 0).1 "BTC" = some 3 := by
  decide

/-- C1, amended.  When the base code is absent the call fails at once and the
ledger is untouched.  When the base code is present but the quote code is
absent, the call fails with the quote-currency error, but the base leg has
already been applied: the resulting ledger is the original with the base
balance incremented by `base_delta` (so the quote balance is still unchanged,
while the base balance is not).  The quote leg is never applied on any
failure. -/
theorem trade_local_failure_cases {α : Type} [Add α] (account : Ledger α)
    (currency_pair side : String) (base_delta quote_delta : α) :
    (dictLookup account (get_base_currency currency_pair) = none →
      trade_local account currency_pair side base_delta quote_delta
        = (account, some TradeError.baseCurrencyNotFound))
    ∧ (∀ b, dictLookup account (get_base_currency currency_pair) = some b →
        dictLookup account (get_quote_currency currency_pair) = none →
        trade_local account currency_pair side base_delta quote_delta
          = (dictUpdate account (get_base_currency currency_pair) (b + base_delta),
             some TradeError.quoteCurrencyNotFound)
        ∧ dictLookup (trade_local account currency_pair side base_delta quote_delta).1
            (get_quote_currency currency_pair) = none) := by
  constructor
  · intro h
    simp [trade_local, h]
  · intro b hb hq
    have hne : get_quote_currency currency_pair ≠ get_base_currency currency_pair := by
      intro h
      rw [h, hb] at hq
      exact Option.noConfusion hq
    have h1 : dictLookup
        (dictUpdate account (get_base_currency currency_pair) (b + base_delta))
        (get_quote_currency currency_pair) = none := by
      rw [dictLookup_dictUpdate_ne _ _ _ _ hne]
      exact hq
    constructor
    · simp [trade_local, hb, h1]
    · simp [trade_local, hb, h1]

/-- Witness for `trade_local_failure_cases` at concrete inputs: the base-leg
failure on an empty ledger, and the quote-leg failure on `{BTC: 2}`. -/
theorem trade_local_failure_cases_witness :
    trade_local ([] : Ledger Int) "BTC-USD" "buy" 1 0
        = ([], some TradeError.baseCurrencyNotFound)
    ∧ trade_local ledgerBtcOnly "BTC-USD" "buy" 1 0
        = (dictUpdate ledgerBtcOnly "BTC" (2 + 1), some TradeError.quoteCurrencyNotFound) :=
  ⟨(trade_local_failure_cases ([] : Ledger Int) "BTC-USD" "buy" 1 0).1 (by decide),
   by
    have h := ((trade_local_failure_cases ledgerBtcOnly "BTC-USD" "buy" 1 0).2 2
      (by decide) (by decide)).1
    rw [h]
    decide⟩

/-- C3, counterexample.  The claim quantifies over every symbol whose base and
quote codes both exist in the ledger.  The symbol "BTC-BTC" has base and quote
both equal to `BTC`, which exists in `{BTC: 0}`; the call with deltas 1 and 1
succeeds, but the base balance ends at `0 + 1 + 1 = 2`, not at
`old + base_delta = 0 + 1` as the claim requires: the two legs alias the same
balance. -/
theorem trade_local_aliased_pair_cex :
    dictLookup ledgerBtcZero (get_base_currency "BTC-BTC") = some 0
    ∧ dictLookup ledgerBtcZero (get_quote_currency "BTC-BTC") = some 0
    ∧ (trade_local ledgerBtcZero "BTC-BTC" "buy" 1 1).2 = none
    ∧ dictLookup (trade_local ledgerBtcZero "BTC-BTC" "buy" 1 1).1
        (get_base_currency "BTC-BTC") = some 2
    ∧ dictLookup (trade_local ledgerBtcZero "BTC-BTC" "buy" 1 1).1
        (get_base_currency "BTC-BTC") ≠ some (0 + 1) := by
  decide

/-- C3, amended.  For every ledger and every symbol whose base and quote codes
are distinct and both exist in the ledger, `trade_local` succeeds, the base
balance becomes its old value plus `base_delta`, the quote balance becomes its
old value plus `quote_delta`, and every other currency's balance is unchanged.
(When base and quote coincide the single shared balance instead receives both
deltas.) -/
theorem trade_local_success {α : Type} [Add α] (account : Ledger α)
    (currency_pair side : String) (base_delta quote_delta : α) (b q : α)
    (hb : dictLookup account (get_base_currency currency_pair) = some b)
    (hq : dictLookup account (get_quote_currency currency_pair) = some q)
    (hne : get_base_currency currency_pair ≠ get_quote_currency currency_pair) :
    (trade_local account currency_pair side base_delta quote_delta).2 = none
    ∧ dictLookup (trade_local account currency_pair side base_delta quote_delta).1
        (get_base_currency currency_pair) = some (b + base_delta)
    ∧ dictLookup (trade_local account currency_pair side base_delta quote_delta).1
        (get_quote_currency currency_pair) = some (q + quote_delta)
    ∧ ∀ c, c ≠ get_base_currency currency_pair →
        c ≠ get_quote_currency currency_pair →
        dictLookup (trade_local account currency_pair side base_delta quote_delta).1 c
          = dictLookup account c := by
  have hq1 : dictLookup
      (dictUpdate account (get_base_currency currency_pair) (b + base_delta))
      (get_quote_currency currency_pair) = some q := by
    rw [dictLookup_dictUpdate_ne _ _ _ _ (Ne.symm hne)]
    exact hq
  have hres : trade_local account currency_pair side base_delta quote_delta
      = (dictUpdate
          (dictUpdate account (get_base_currency currency_pair) (b + base_delta))
          (get_quote_currency currency_pair) (q + quote_delta), none) := by
    simp [trade_local, hb, hq1]
  refine ⟨by rw [hres], ?_, ?_, ?_⟩
  · rw [hres]
    show dictLookup _ _ = some (b + base_delta)
    rw [dictLookup_dictUpdate_ne _ _ _ _ hne]
    exact dictLookup_dictUpdate_self ..
  · rw [hres]
    exact dictLookup_dictUpdate_self ..
  · intro c hcb hcq
    rw [hres]
    show dictLookup _ c = dictLookup account c
    rw [dictLookup_dictUpdate_ne _ _ _ _ hcq, dictLookup_dictUpdate_ne _ _ _ _ hcb]

/-- Witness for `trade_local_success`: on `{BTC: 2, USD: 100, XLM: 7}` the
trade "BTC-USD" with deltas 1 and -50 yields balances 2 + 1 and 100 + (-50)
and leaves the bystander `XLM` untouched. -/
theorem trade_local_success_witness :
    (trade_local ledgerThree "BTC-USD" "buy" 1 (-50)).2 = none
    ∧ dictLookup (trade_local ledgerThree "BTC-USD" "buy" 1 (-50)).1
        (get_base_currency "BTC-USD") = some (2 + 1)
    ∧ dictLookup (trade_local ledgerThree "BTC-USD" "buy" 1 (-50)).1
        (get_quote_currency "BTC-USD") = some (100 + (-50))
    ∧ dictLookup (trade_local ledgerThree "BTC-USD" "buy" 1 (-50)).1 "XLM"
        = dictLookup ledgerThree "XLM" :=
  have h := trade_local_success ledgerThree "BTC-USD" "buy" 1 (-50) 2 100
    (by decide) (by decide) (by decide)
  ⟨h.1, h.2.1, h.2.2.1, h.2.2.2 "XLM" (by decide) (by decide)⟩

/-- C9.  The `side` argument of `trade_local` is never consulted: two calls
differing only in `side` produce the same resulting ledger and the same
success-or-error outcome. -/
theorem trade_local_side_independent {α : Type} [Add α] (account : Ledger α)
    (currency_pair : String) (side1 side2 : String) (base_delta quote_delta : α) :
    trade_local account currency_pair side1 base_delta quote_delta
      = trade_local account currency_pair side2 base_delta quote_delta := rfl

/-! ## Claims about the exchange orchestrator -/

/-- Full description of one `append_model` call: the entry is stored, then
the interface and the just-stored model are queried, then `setup` is called
with the assembled snapshot. -/
theorem append_model_run (asset_state : String → AssetState) (models : Registry)
    (m : Model) (coin_id : String) (args : Args) :
    append_model asset_state models m coin_id args
      = ⟨dictUpdate models coin_id ⟨m, args⟩,
         [ExchEvent.store coin_id ⟨m, args⟩, ExchEvent.getAssetState coin_id,
          ExchEvent.getState m.id,
          ExchEvent.setupCall m.id coin_id ⟨asset_state coin_id, m.state⟩],
         ExchResult.ok ()⟩ := by
  have h := dictLookup_dictUpdate_self models coin_id (⟨m, args⟩ : ModelEntry)
  simp [append_model, get_full_state, get_model_state, h]

/-- C2, counterexample.  The claim says the `{model, args}` entry is stored
only after `setup` returns, so the registry does not yet contain the entry
when `setup` is invoked.  On an empty registry, attaching `modelA` to
"BTC-USD" emits the store event **first** and the `setup` call last, and the
resulting registry (already updated before `setup` ran, and needed by the
`get_full_state` lookup inside the call) contains the new entry. -/
theorem append_model_stores_before_setup_cex :
    (append_model assetStateConst [] modelA "BTC-USD" none).events.head?
        = some (ExchEvent.store "BTC-USD" ⟨modelA, none⟩)
    ∧ ExchEvent.setupCall modelA.id "BTC-USD" ⟨assetStateConst "BTC-USD", modelA.state⟩
        ∈ (append_model assetStateConst [] modelA "BTC-USD" none).events.tail
    ∧ dictLookup (append_model assetStateConst [] modelA "BTC-USD" none).registry
        "BTC-USD" = some ⟨modelA, none⟩ := by
  decide

/-- C2, amended.  `append_model` first stores the `{model, args}` entry under
the symbol, then builds the combined snapshot via `get_full_state(symbol)` —
querying the interface and the just-stored model's `get_state` through the
registry — and only then calls the model's `setup` with that snapshot: at the
moment `setup` is invoked the registry already contains the new entry, and
the snapshot reflects account and model state as at attach time. -/
theorem append_model_spec (asset_state : String → AssetState) (models : Registry)
    (m : Model) (coin_id : String) (args : Args) :
    (append_model asset_state models m coin_id args).registry
        = dictUpdate models coin_id ⟨m, args⟩
    ∧ (append_model asset_state models m coin_id args).events
        = [ExchEvent.store coin_id ⟨m, args⟩, ExchEvent.getAssetState coin_id,
           ExchEvent.getState m.id,
           ExchEvent.setupCall m.id coin_id ⟨asset_state coin_id, m.state⟩]
    ∧ (append_model asset_state models m coin_id args).result = ExchResult.ok () := by
  rw [append_model_run]
  exact ⟨rfl, rfl, rfl⟩

/-- C10.  During `append_model` the newly attached model's `get_state` is
queried (through `get_full_state` and `get_model_state`) strictly before its
`setup` is ever called — the `get_state` call is the third event, the only
`setup` call the fourth — and the model component of the `initial_state`
snapshot passed to `setup` is the new model's own pre-`setup` state. -/
theorem append_model_queries_state_before_setup (asset_state : String → AssetState)
    (models : Registry) (m : Model) (coin_id : String) (args : Args) :
    ((append_model asset_state models m coin_id args).events)[2]?
        = some (ExchEvent.getState m.id)
    ∧ ((append_model asset_state models m coin_id args).events)[3]?
        = some (ExchEvent.setupCall m.id coin_id ⟨asset_state coin_id, m.state⟩)
    ∧ (∀ i, i < 3 → ∀ c fs,
        ((append_model asset_state models m coin_id args).events)[i]?
          ≠ some (ExchEvent.setupCall m.id c fs))
    ∧ (append_model asset_state models m coin_id args).events.length = 4 := by
  rw [append_model_run]
  refine ⟨rfl, rfl, ?_, rfl⟩
  intro i hi c fs
  interval_cases i <;> simp

/-- Witness for `append_model_queries_state_before_setup` at concrete inputs:
attaching `modelA` to "BTC-USD" on the empty registry. -/
theorem append_model_queries_state_before_setup_witness :
    ((append_model assetStateConst [] modelA "BTC-USD" none).events)[2]?
        = some (ExchEvent.getState modelA.id)
    ∧ ((append_model assetStateConst [] modelA "BTC-USD" none).events)[0]?
        ≠ some (ExchEvent.setupCall modelA.id "BTC-USD"
            ⟨assetStateConst "BTC-USD", modelA.state⟩) :=
  have h := append_model_queries_state_before_setup assetStateConst [] modelA "BTC-USD" none
  ⟨h.1, h.2.2.1 0 (by decide) "BTC-USD" ⟨assetStateConst "BTC-USD", modelA.state⟩⟩

/-- C7.  `start_models` on a symbol with a registry entry raises nothing,
queries the entry model's `is_running()` first, and calls `run(args)` on it
only when the answer is false; when the model is already running the call is
a no-op that performs zero `run` invocations. -/
theorem start_models_single_spec (models : Registry) (coin_id : String) (e : ModelEntry)
    (h : dictLookup models coin_id = some e) :
    (start_models models (some coin_id)).result = ExchResult.ok ()
    ∧ (start_models models (some coin_id)).events.head?
        = some (ExchEvent.isRunningQuery e.model.id)
    ∧ (e.model.running = true →
        (start_models models (some coin_id)).events
          = [ExchEvent.isRunningQuery e.model.id])
    ∧ (e.model.running = false →
        (start_models models (some coin_id)).events
          = [ExchEvent.isRunningQuery e.model.id, ExchEvent.runCall e.model.id e.args])
    ∧ (∀ m a, e.model.running = true →
        ExchEvent.runCall m a ∉ (start_models models (some coin_id)).events) := by
  cases hr : e.model.running <;> simp [start_models, h, hr]

/-- Witness for `start_models_single_spec`: on `regTwo`, starting the
already-running "BTC-USD" model only queries it, and starting the stopped
"ETH-USD" model queries it and then runs it. -/
theorem start_models_single_spec_witness :
    (start_models regTwo (some "BTC-USD")).result = ExchResult.ok ()
    ∧ (start_models regTwo (some "BTC-USD")).events
        = [ExchEvent.isRunningQuery modelRunning.id]
    ∧ (start_models regTwo (some "ETH-USD")).events
        = [ExchEvent.isRunningQuery modelStopped.id,
           ExchEvent.runCall modelStopped.id (some 9)] :=
  have h1 := start_models_single_spec regTwo "BTC-USD" ⟨modelRunning, none⟩ (by decide)
  have h2 := start_models_single_spec regTwo "ETH-USD" ⟨modelStopped, some 9⟩ (by decide)
  ⟨h1.1, h1.2.2.1 rfl, h2.2.2.2.1 rfl⟩

/-- Run-call extraction for the per-entry event block. -/
theorem runEvents_startEntry (coin : String) (e : ModelEntry) :
    runEvents (startEntryEvents coin e)
      = if e.model.running then [] else [ExchEvent.runCall e.model.id e.args] := by
  cases hr : e.model.running <;>
    simp [startEntryEvents, hr, runEvents, isRunEvent, List.filter]

theorem runEvents_append (l1 l2 : List ExchEvent) :
    runEvents (l1 ++ l2) = runEvents l1 ++ runEvents l2 :=
  List.filter_append ..

/-- Bulk start emits exactly one `run(args)` call per not-running entry, in
registry insertion order. -/
theorem runEvents_start_all (models : Registry) :
    runEvents ((start_models models none).events)
      = (models.filter (fun p => !p.2.model.running)).map
          (fun p => ExchEvent.runCall p.2.model.id p.2.args) := by
  show runEvents ((models.map (fun p => startEntryEvents p.1 p.2)).flatten) = _
  induction models with
  | nil => rfl
  | cons hd t ih =>
      rw [List.map_cons, List.flatten_cons, runEvents_append, ih, runEvents_startEntry]
      cases hr : hd.2.model.running <;> simp [hr, List.filter_cons]

/-- Bulk start prints the skip diagnostic for every already-running entry. -/
theorem printIgnoring_mem_start_all (models : Registry) (p : String × ModelEntry)
    (hp : p ∈ models) (hr : p.2.model.running = true) :
    ExchEvent.printIgnoring p.1 ∈ (start_models models none).events := by
  have hev : (start_models models none).events
      = (models.map (fun p => startEntryEvents p.1 p.2)).flatten := rfl
  rw [hev]
  refine List.mem_flatten.mpr
    ⟨startEntryEvents p.1 p.2, List.mem_map_of_mem _ hp, ?_⟩
  simp [startEntryEvents, hr]

/-- C6.  Bulk `start_models` (no symbol) raises nothing; its `run(args)`
calls are exactly one per not-running registry entry, in registry insertion
order; every already-running entry gets the skip diagnostic; and — whenever
the attached model objects are pairwise distinct — no already-running model
is ever run and no model is run more than once in the call. -/
theorem start_models_bulk_spec (models : Registry) :
    (start_models models none).result = ExchResult.ok ()
    ∧ runEvents ((start_models models none).events)
        = (models.filter (fun p => !p.2.model.running)).map
            (fun p => ExchEvent.runCall p.2.model.id p.2.args)
    ∧ (∀ p ∈ models, p.2.model.running = true →
        ExchEvent.printIgnoring p.1 ∈ (start_models models none).events)
    ∧ ((models.map (fun p => p.2.model.id)).Nodup →
        (∀ p ∈ models, p.2.model.running = true →
          ∀ a, ExchEvent.runCall p.2.model.id a ∉ (start_models models none).events)
        ∧ (∀ ev, (runEvents ((start_models models none).events)).count ev ≤ 1)) := by
  refine ⟨rfl, runEvents_start_all models,
    fun p hp hr => printIgnoring_mem_start_all models p hp hr, fun hnd => ⟨?_, ?_⟩⟩
  · intro p hp hr a hmem
    have h1 : ExchEvent.runCall p.2.model.id a
        ∈ runEvents ((start_models models none).events) :=
      List.mem_filter.mpr ⟨hmem, rfl⟩
    rw [runEvents_start_all] at h1
    obtain ⟨q, hq, hqe⟩ := List.mem_map.mp h1
    obtain ⟨hqm, hqP⟩ := List.mem_filter.mp hq
    injection hqe with hid _
    have hpq : q = p := List.inj_on_of_nodup_map hnd hqm hp hid
    rw [hpq] at hqP
    rw [hr] at hqP
    exact Bool.noConfusion hqP
  · intro ev
    have hnd2 : (((models.filter (fun p => !p.2.model.running)).map
        (fun p => ExchEvent.runCall p.2.model.id p.2.args)).map eventModelId).Nodup := by
      have hmm : ((models.filter (fun p => !p.2.model.running)).map
          (fun p => ExchEvent.runCall p.2.model.id p.2.args)).map eventModelId
          = (models.filter (fun p => !p.2.model.running)).map
              (fun p => p.2.model.id) := by
        rw [List.map_map]
        rfl
      rw [hmm]
      exact hnd.sublist ((List.filter_sublist _).map _)
    have hnd3 : ((models.filter (fun p => !p.2.model.running)).map
        (fun p => ExchEvent.runCall p.2.model.id p.2.args)).Nodup :=
      List.Nodup.of_map eventModelId hnd2
    rw [runEvents_start_all]
    exact List.nodup_iff_count_le_one.mp hnd3 ev

/-- Witness for `start_models_bulk_spec` on `regTwo`: the stopped "ETH-USD"
model is run exactly once, the running "BTC-USD" model is skipped with the
diagnostic and never run. -/
theorem start_models_bulk_spec_witness :
    (start_models regTwo none).result = ExchResult.ok ()
    ∧ runEvents ((start_models regTwo none).events)
        = [ExchEvent.runCall modelStopped.id (some 9)]
    ∧ ExchEvent.printIgnoring "BTC-USD" ∈ (start_models regTwo none).events
    ∧ (∀ a, ExchEvent.runCall modelRunning.id a ∉ (start_models regTwo none).events)
    ∧ (runEvents ((start_models regTwo none).events)).count
        (ExchEvent.runCall modelStopped.id (some 9)) ≤ 1 :=
  have h := start_models_bulk_spec regTwo
  have h4 := h.2.2.2 (by decide)
  ⟨h.1, by rw [h.2.1]; rfl,
   h.2.2.1 ("BTC-USD", ⟨modelRunning, none⟩) (by decide) rfl,
   fun a => h4.1 ("BTC-USD", ⟨modelRunning, none⟩) (by decide) rfl a,
   h4.2 (ExchEvent.runCall modelStopped.id (some 9))⟩

/-- C8.  `get_model_state` and `write_value` raise the unknown-symbol
`KeyError` exactly when the registry has no entry for the symbol; with an
entry, `get_model_state` returns exactly the entry model's `get_state()`
answer and `write_value` delegates the key/value pair to the entry model's
`update_state`; neither operation modifies the registry. -/
theorem state_access_spec (models : Registry) (currency key : String) (value : Int) :
    (dictLookup models currency = none →
      (get_model_state models currency).result = ExchResult.err ExchError.unknownSymbol
      ∧ (write_value models currency key value).result
          = ExchResult.err ExchError.unknownSymbol)
    ∧ (∀ e, dictLookup models currency = some e →
        (get_model_state models currency).result = ExchResult.ok e.model.state
        ∧ (write_value models currency key value).events
            = [ExchEvent.updateStateCall e.model.id key value]
        ∧ (write_value models currency key value).result = ExchResult.ok ())
    ∧ (get_model_state models currency).registry = models
    ∧ (write_value models currency key value).registry = models := by
  refine ⟨fun h => ?_, fun e h => ?_, ?_, ?_⟩
  · simp [get_model_state, write_value, h]
  · simp [get_model_state, write_value, h]
  · cases h : dictLookup models currency <;> simp [get_model_state, h]
  · cases h : dictLookup models currency <;> simp [write_value, h]

/-- Witness for `state_access_spec` on `regTwo`: "DOGE-USD" has no entry and
both operations raise; "ETH-USD" has one and both delegate to its model,
leaving the registry as it was. -/
theorem state_access_spec_witness :
    (get_model_state regTwo "DOGE-USD").result = ExchResult.err ExchError.unknownSymbol
    ∧ (write_value regTwo "DOGE-USD" "note" 4).result
        = ExchResult.err ExchError.unknownSymbol
    ∧ (get_model_state regTwo "ETH-USD").result = ExchResult.ok modelStopped.state
    ∧ (write_value regTwo "ETH-USD" "note" 4).events
        = [ExchEvent.updateStateCall modelStopped.id "note" 4]
    ∧ (get_model_state regTwo "ETH-USD").registry = regTwo :=
  have ha := state_access_spec regTwo "DOGE-USD" "note" 4
  have hb := state_access_spec regTwo "ETH-USD" "note" 4
  have habs := ha.1 (by decide)
  have hsome := hb.2.1 ⟨modelStopped, some 9⟩ (by decide)
  ⟨habs.1, habs.2, hsome.1, hsome.2.1, hb.2.2.1⟩

/-! ## Claims about the signal pipeline -/

/-- C4.  Constructing a `Signal` with a non-callable evaluator raises the
`TypeError` before any symbol is processed: the raw (and formatted) results
stay empty and zero evaluator invocations occur; when an init callable was
provided, init has still been invoked exactly once with the signal state
before the failure, and when it was not, nothing ran at all. -/
theorem signal_evaluator_not_callable (symbols : List String)
    (init teardown : Option (SigState → SigState)) (formatter : Option Formatter)
    (st0 : SigState) :
    (signalRun none symbols init teardown formatter st0).error
        = some SigError.evaluatorNotCallable
    ∧ (signalRun none symbols init teardown formatter st0).raw_results = []
    ∧ (signalRun none symbols init teardown formatter st0).formatted_results = []
    ∧ (∀ s, SigEvent.evalCall s
        ∉ (signalRun none symbols init teardown formatter st0).events)
    ∧ (∀ f, init = some f →
        (signalRun none symbols init teardown formatter st0).events = [SigEvent.initCall]
        ∧ (signalRun none symbols init teardown formatter st0).finalState = f st0)
    ∧ (init = none →
        (signalRun none symbols init teardown formatter st0).events = []) := by
  cases init <;> simp [signalRun]

/-- Witness for `signal_evaluator_not_callable`: symbols ["A", "B"], an init
callable that marks the state, no evaluator. -/
theorem signal_evaluator_not_callable_witness :
    (signalRun none ["A", "B"] (some initShift) none none []).error
        = some SigError.evaluatorNotCallable
    ∧ (signalRun none ["A", "B"] (some initShift) none none []).raw_results = []
    ∧ (∀ s, SigEvent.evalCall s
        ∉ (signalRun none ["A", "B"] (some initShift) none none []).events)
    ∧ (signalRun none ["A", "B"] (some initShift) none none []).events
        = [SigEvent.initCall]
    ∧ (signalRun none ["A", "B"] (some initShift) none none []).finalState
        = initShift [] :=
  have h := signal_evaluator_not_callable ["A", "B"] (some initShift) none none []
  have h5 := h.2.2.2.2.1 initShift rfl
  ⟨h.1, h.2.1, h.2.2.2.1, h5.1, h5.2⟩

/-- C5.  With a callable evaluator the pipeline's raw results are untouched
by formatting: with no formatter the formatted results equal the raw results
as values; supplying any formatter leaves the raw results exactly as the
evaluator produced them, while the formatted results become whatever the
formatter returns on the (deep-copied) raw results and the post-evaluation
signal state; the run raises nothing.  Mutation through object aliasing does
not exist in this value-level embedding; the deep copy in the source is
rendered by the formatter receiving and replacing values, with
`raw_results` observably independent of the formatter. -/
theorem signal_formatted_results_copy (ev : Evaluator) (symbols : List String)
    (init teardown : Option (SigState → SigState)) (f : Formatter) (st0 : SigState) :
    (signalRun (some ev) symbols init teardown none st0).formatted_results
        = (signalRun (some ev) symbols init teardown none st0).raw_results
    ∧ (signalRun (some ev) symbols init teardown (some f) st0).raw_results
        = (signalRun (some ev) symbols init teardown none st0).raw_results
    ∧ (signalRun (some ev) symbols init teardown (some f) st0).formatted_results
        = (f (deepcopy (signalRun (some ev) symbols init none none st0).raw_results)
             (signalRun (some ev) symbols init none none st0).finalState).1
    ∧ (signalRun (some ev) symbols init teardown (some f) st0).error = none
    ∧ (signalRun (some ev) symbols init teardown none st0).error = none := by
  cases init <;> cases teardown <;> simp [signalRun, deepcopy]
